import Mathlib

/-!
# Verification of the toolman process-lifecycle coordinator

Shallow embedding of the shutdown/abort orchestration engine and the
init machinery of package `toolman` (files `shutdown.go` and `init.go`;
the repository ships a v1 and a v2 copy of each, identical in all
behavior modelled here).

Modelling conventions:
* Durations are `Int` nanoseconds, mirroring Go `time.Duration` (int64).
  All inputs appearing in the claims are far below 2^63, so int64
  wraparound is irrelevant and not modelled.
* Go integer division (`ta / 5` on int64) truncates toward zero; we use
  `Int.tdiv`.
* Callbacks are opaque and identified by a `FuncId`; invoking a callback
  is recorded as an `Event.invoke` in an event trace rather than
  executed.  The timer race of `shutdown` (channel `done` vs `tout`) is
  real-time behavior and is not part of the trace; the trace records the
  goroutine loop, which invokes every registered action in reverse
  registration order.
* The `downmutex` lock/unlock operations of the terminating thread are
  recorded as trace events.  Go's `os.Exit` terminates the process
  without running deferred calls, so on the terminating path the
  deferred `downmutex.Unlock()` never executes and no `lockRelease`
  event appears before `exit`.
-/

/-- Identifier for an opaque registered callback.  `logFlush` is the
log-flushing `ShutdownFunc` that `Init` itself registers. -/
inductive FuncId where
  | user (n : Nat)
  | logFlush
deriving DecidableEq

/-- One nanosecond-denominated millisecond, as in Go `time.Millisecond`. -/
def millisecond : Int := 1000000

/-- Go `shutdownAction`: a registered termination action. -/
structure ShutdownAction where
  downFunc : FuncId
  allowance : Int
  onAbort : Bool
  onShutdown : Bool
deriving DecidableEq

/-- The three exported `ShutdownOption` constructors (`OnShutdown()`,
`OnAbort()`, `TimeAllowance(dur)`), deep-embedded since these are the
only option values the package produces. -/
inductive ShutdownOption where
  | onShutdown
  | onAbort
  | timeAllowance (dur : Int)
deriving DecidableEq

/-- Applying one option to an action under construction, exactly the
closures returned by `OnShutdown`, `OnAbort` and `TimeAllowance`. -/
def ShutdownOption.apply (sa : ShutdownAction) : ShutdownOption → ShutdownAction
  | .onShutdown => { sa with onShutdown := true }
  | .onAbort => { sa with onAbort := true }
  | .timeAllowance dur => { sa with allowance := dur }

/-- The package-level mutable state (`initialized`, `finalized`,
`initfuncs`, `downactions` from `init.go`). -/
structure ToolmanState where
  initialized : Bool
  finalized : Bool
  initfuncs : List FuncId
  downactions : List ShutdownAction
deriving DecidableEq

/-- Result of a registration call: the new state, plus whether the call
reported an error through the diagnostic sink (`log.ErrorDepth`).  The
Go function returns normally in every case; there is no panic path. -/
structure RegisterResult where
  state : ToolmanState
  errorReported : Bool
deriving DecidableEq

/-- The action-construction part of `RegisterShutdown`: start from the
default (allowance 100ms, both scope flags unset), apply each option in
order, then default both scope flags to true when neither was set. -/
def builtAction (sdf : FuncId) (opts : List ShutdownOption) : ShutdownAction :=
  let sa0 : ShutdownAction :=
    { downFunc := sdf, allowance := 100 * millisecond
      onAbort := false, onShutdown := false }
  let sa1 := opts.foldl ShutdownOption.apply sa0
  if !sa1.onAbort && !sa1.onShutdown then
    { sa1 with onAbort := true, onShutdown := true }
  else sa1

/-- Go `RegisterShutdown(sdf, opts...)`: under `downmutex`, refuse (with
a reported error) when `finalized`; otherwise build the action
(see `builtAction`) and append. -/
def RegisterShutdown (s : ToolmanState) (sdf : FuncId)
    (opts : List ShutdownOption) : RegisterResult :=
  if s.finalized then
    { state := s, errorReported := true }
  else
    { state := { s with downactions := s.downactions ++ [builtAction sdf opts] }
      errorReported := false }

/-- Events observable on the terminating thread's trace. -/
inductive Event where
  | lockAcquire
  | lockRelease
  | setFinalized
  | invoke (f : FuncId)
  | writeStderr (mesg : String)
  | exit (code : Int)
deriving DecidableEq

/-- Sum of the `allowance` fields of a list of actions (the accumulation
loop of `shutdown`, which ranges over ALL of `downactions`; the source
carries a TODO noting it should only sum applicable actions). -/
def sumAllowances (l : List ShutdownAction) : Int :=
  (l.map (fun da => da.allowance)).sum

/-- Result of the internal `shutdown(code, mesg)`: final state, the
computed total time budget `ta` (0 on the already-finalized fast path,
where it is never computed), and the event trace. -/
structure ShutdownResult where
  state : ToolmanState
  budget : Int
  events : List Event
deriving DecidableEq

/-- Go `shutdown(code, mesg)`.  Locks `downmutex`; if `finalized`,
returns at once (the deferred unlock runs).  Otherwise sets `finalized`,
sums the allowances of all registered actions plus a 20% fudge
(`ta + ta/5`, truncating division), runs every action in reverse
registration order (the goroutine's loop body has no applicability
check), writes `mesg` to stderr when non-empty, and calls `os.Exit`
with `code` — which skips the deferred unlock. -/
def shutdown (s : ToolmanState) (code : Int) (mesg : String) : ShutdownResult :=
  if s.finalized then
    { state := s, budget := 0, events := [Event.lockAcquire, Event.lockRelease] }
  else
    let ta0 := sumAllowances s.downactions
    let ta := ta0 + Int.tdiv ta0 5
    let invokes := s.downactions.reverse.map (fun da => Event.invoke da.downFunc)
    let errevs := if mesg = "" then ([] : List Event) else [Event.writeStderr mesg]
    { state := { s with finalized := true }
      budget := ta
      events := [Event.lockAcquire, Event.setFinalized]
        ++ invokes ++ errevs ++ [Event.exit code] }

/-- Go `Shutdown()`: `shutdown(0, "")`. -/
def Shutdown (s : ToolmanState) : ShutdownResult := shutdown s 0 ""

/-- Go `Abort(mesg)`: `shutdown(1, mesg)`. -/
def Abort (s : ToolmanState) (mesg : String) : ShutdownResult := shutdown s 1 mesg

/-- The termination mode of a request. -/
inductive TermMode where
  | shutdownMode
  | abortMode
deriving DecidableEq

/-- The mode-appropriate scope flag: `onShutdown` for Shutdown,
`onAbort` for Abort. -/
def appliesTo (m : TermMode) (sa : ShutdownAction) : Bool :=
  match m with
  | .shutdownMode => sa.onShutdown
  | .abortMode => sa.onAbort

/-- The applicable-subset budget described by the spec (NOT what the
code computes): sum the allowances of exactly the actions whose
mode-appropriate scope flag is set, then add 20%.  Kept for comparison
with the budget the code actually produces. -/
def specApplicableBudget (m : TermMode) (s : ToolmanState) : Int :=
  let ta0 := sumAllowances (s.downactions.filter (appliesTo m))
  ta0 + Int.tdiv ta0 5

/-- The identifiers of the callbacks invoked along a trace, in order. -/
def invokedFuncs (evs : List Event) : List FuncId :=
  evs.filterMap (fun e => match e with | .invoke f => some f | _ => none)

/-- The stderr lines written along a trace, in order. -/
def stderrWrites (evs : List Event) : List String :=
  evs.filterMap (fun e => match e with | .writeStderr m => some m | _ => none)

/-- `true` when some `invoke` event happens while the terminating
thread's lock depth (acquisitions minus releases so far) is positive,
i.e. the registry lock is held across some action execution. -/
def lockHeldDuringInvokeAux : Int → List Event → Bool
  | _, [] => false
  | depth, e :: rest =>
    match e with
    | .lockAcquire => lockHeldDuringInvokeAux (depth + 1) rest
    | .lockRelease => lockHeldDuringInvokeAux (depth - 1) rest
    | .invoke _ => decide (0 < depth) || lockHeldDuringInvokeAux depth rest
    | _ => lockHeldDuringInvokeAux depth rest

/-- See `lockHeldDuringInvokeAux`; the trace starts with lock depth 0. -/
def lockHeldDuringInvoke (evs : List Event) : Bool :=
  lockHeldDuringInvokeAux 0 evs

/-- Result of `Init(opts...)`: final state, whether the call panicked
(the repeated-call guard), and the startup functions it invoked, in
order.  The `InitOption` configuration steps (flag parsing, signal
setup, logging, pidfile) do not touch the registry and are not
modelled; the registered startup callbacks are opaque, so effects they
may themselves have on the registry are outside this embedding. -/
structure InitResult where
  state : ToolmanState
  panicked : Bool
  ran : List FuncId
deriving DecidableEq

/-- Go `Init(opts...)`.  Under `initmutex`, with `initialized := true`
deferred: a second call panics (the deferred assignment still runs);
the first call registers the log-flush shutdown action with no options
and then runs every registered startup function in registration
order. -/
def Init (s : ToolmanState) : InitResult :=
  if s.initialized then
    { state := { s with initialized := true }, panicked := true, ran := [] }
  else
    let r := RegisterShutdown s FuncId.logFlush []
    { state := { r.state with initialized := true }
      panicked := false
      ran := s.initfuncs }

/-- Go `RegisterInit(f)`: under `initmutex`, refuse (with a reported
error) when `initialized`; otherwise append. -/
def RegisterInit (s : ToolmanState) (f : FuncId) : RegisterResult :=
  if s.initialized then
    { state := s, errorReported := true }
  else
    { state := { s with initfuncs := s.initfuncs ++ [f] }
      errorReported := false }

/-- The termination action `Init` itself registers
(`RegisterShutdown(func() { log.Flush(); ... })`, no options): the
log-flush callback with the default 100ms allowance, applicable to both
modes. -/
def flushAction : ShutdownAction :=
  { downFunc := FuncId.logFlush, allowance := 100 * millisecond
    onAbort := true, onShutdown := true }

/-! ## Concrete states used by counterexamples and witnesses -/

/-- A fresh state: initialized, not finalized, nothing registered. -/
def emptyState : ToolmanState :=
  { initialized := true, finalized := false, initfuncs := [], downactions := [] }

/-- One action registered with `OnAbort()` only. -/
def abortOnlyState : ToolmanState :=
  (RegisterShutdown emptyState (FuncId.user 0) [ShutdownOption.onAbort]).state

/-- Two actions: an abort-only one with a 50ms allowance, then an
unrestricted one with the default 100ms allowance. -/
def budgetState : ToolmanState :=
  (RegisterShutdown
    (RegisterShutdown emptyState (FuncId.user 0)
      [ShutdownOption.onAbort, ShutdownOption.timeAllowance (50 * millisecond)]).state
    (FuncId.user 1) []).state

/-- One unrestricted action registered on a fresh state. -/
def oneActionState : ToolmanState :=
  (RegisterShutdown emptyState (FuncId.user 3) []).state

/-- A state on which termination has already finalized. -/
def finalizedState : ToolmanState :=
  (shutdown emptyState 0 "").state

/-- Two unrestricted actions registered in order `user 4`, `user 5`. -/
def twoActionState : ToolmanState :=
  (RegisterShutdown (RegisterShutdown emptyState (FuncId.user 4) []).state
    (FuncId.user 5) []).state

/-- A fresh pre-`Init` state with one startup function registered and
one termination action already registered. -/
def preInitState : ToolmanState :=
  { initialized := false, finalized := false, initfuncs := [FuncId.user 6]
    downactions := [{ downFunc := FuncId.user 7, allowance := 100 * millisecond
                      onAbort := true, onShutdown := true }] }

/-! ## Helper lemmas -/

theorem invokedFuncs_invoke_map (l : List ShutdownAction) :
    invokedFuncs (l.map (fun da => Event.invoke da.downFunc))
      = l.map (fun da => da.downFunc) := by
  induction l with
  | nil => rfl
  | cons a rest ih => simpa [invokedFuncs, List.filterMap_cons] using ih

theorem stderrWrites_invoke_map (l : List ShutdownAction) :
    stderrWrites (l.map (fun da => Event.invoke da.downFunc)) = [] := by
  induction l with
  | nil => rfl
  | cons a rest ih => simp [stderrWrites, List.filterMap_cons] at ih ⊢

theorem shutdown_finalized (s : ToolmanState) (code : Int) (mesg : String)
    (h : s.finalized = true) :
    shutdown s code mesg
      = { state := s, budget := 0
          events := [Event.lockAcquire, Event.lockRelease] } := by
  simp [shutdown, h]

theorem invokedFuncs_shutdown (s : ToolmanState) (code : Int) (mesg : String)
    (h : s.finalized = false) :
    invokedFuncs (shutdown s code mesg).events
      = s.downactions.reverse.map (fun da => da.downFunc) := by
  have hinv := invokedFuncs_invoke_map s.downactions.reverse
  simp only [shutdown, h, Bool.false_eq_true, if_false, invokedFuncs,
    List.filterMap_append, List.filterMap_cons, List.filterMap_nil] at hinv ⊢
  split <;> simp_all

theorem stderrWrites_shutdown (s : ToolmanState) (code : Int) (mesg : String)
    (h : s.finalized = false) :
    stderrWrites (shutdown s code mesg).events
      = (if mesg = "" then [] else [mesg]) := by
  have hinv := stderrWrites_invoke_map s.downactions.reverse
  simp only [shutdown, h, Bool.false_eq_true, if_false, stderrWrites,
    List.filterMap_append, List.filterMap_cons, List.filterMap_nil] at hinv ⊢
  split <;> simp_all

theorem shutdown_events_eq (s : ToolmanState) (code : Int) (mesg : String)
    (h : s.finalized = false) :
    (shutdown s code mesg).events
      = ([Event.lockAcquire, Event.setFinalized]
          ++ s.downactions.reverse.map (fun da => Event.invoke da.downFunc)
          ++ (if mesg = "" then [] else [Event.writeStderr mesg]))
        ++ [Event.exit code] := by
  simp [shutdown, h, List.append_assoc]

/-! ## Claims -/

/-- C1: the claim says a Shutdown call invokes exactly the registered
actions whose `onShutdown` flag is true.  The code deviates: its
execution loop has no applicability check, so a `Shutdown()` call on a
registry holding one abort-only action (whose `onShutdown` flag is
false, contradicting the documented contract of `OnAbort`/`OnShutdown`)
still invokes that action's callback. -/
theorem shutdown_invokes_nonapplicable_action :
    (abortOnlyState.downactions.map (fun sa => appliesTo TermMode.shutdownMode sa))
      = [false] ∧
    invokedFuncs (Shutdown abortOnlyState).events = [FuncId.user 0] := by
  decide

/-- C2: the claim says the budget is 120% of the sum of the allowances
of only the mode-applicable actions.  The code deviates (per its own
TODO): it sums every registered action's allowance, so with an
abort-only 50ms action and an unrestricted 100ms action a `Shutdown()`
budget is 180ms, not the 120ms the applicable-subset rule yields. -/
theorem budget_sums_all_actions :
    (Shutdown budgetState).budget = 180 * millisecond ∧
    specApplicableBudget TermMode.shutdownMode budgetState = 120 * millisecond ∧
    (Shutdown budgetState).budget ≠ specApplicableBudget TermMode.shutdownMode budgetState := by
  decide

/-- C3: termination is one-shot.  The first `shutdown` call on a
non-finalized state sets `finalized`; a second call returns immediately
(acquiring and releasing the lock only) and invokes nothing, so the two
calls together invoke exactly the registered callbacks once each, in
reverse registration order. -/
theorem shutdown_one_shot (s : ToolmanState) (c₁ c₂ : Int) (m₁ m₂ : String)
    (h : s.finalized = false) :
    (shutdown s c₁ m₁).state.finalized = true ∧
    (shutdown (shutdown s c₁ m₁).state c₂ m₂).events
      = [Event.lockAcquire, Event.lockRelease] ∧
    invokedFuncs (shutdown s c₁ m₁).events
        ++ invokedFuncs (shutdown (shutdown s c₁ m₁).state c₂ m₂).events
      = s.downactions.reverse.map (fun da => da.downFunc) := by
  have h1 : (shutdown s c₁ m₁).state.finalized = true := by
    simp [shutdown, h]
  have h2 : (shutdown (shutdown s c₁ m₁).state c₂ m₂).events
      = [Event.lockAcquire, Event.lockRelease] := by
    rw [shutdown_finalized _ c₂ m₂ h1]
  refine ⟨h1, h2, ?_⟩
  rw [invokedFuncs_shutdown s c₁ m₁ h, h2]
  simp [invokedFuncs]

/-- Witness for C3 at a concrete one-action registry. -/
theorem shutdown_one_shot_witness :
    oneActionState.finalized = false ∧
    ((shutdown oneActionState 0 "").state.finalized = true ∧
     (shutdown (shutdown oneActionState 0 "").state 1 "x").events
       = [Event.lockAcquire, Event.lockRelease] ∧
     invokedFuncs (shutdown oneActionState 0 "").events
         ++ invokedFuncs (shutdown (shutdown oneActionState 0 "").state 1 "x").events
       = oneActionState.downactions.reverse.map (fun da => da.downFunc)) :=
  ⟨by decide, shutdown_one_shot oneActionState 0 1 "" "x" (by decide)⟩

/-- C5: registering after finalization reports an error through the
diagnostic sink, leaves the state (hence the action list) unchanged,
and returns normally — the model has no panic path. -/
theorem register_after_finalized (s : ToolmanState) (f : FuncId)
    (opts : List ShutdownOption) (h : s.finalized = true) :
    RegisterShutdown s f opts = { state := s, errorReported := true } := by
  simp [RegisterShutdown, h]

/-- Witness for C5 at a concrete finalized state. -/
theorem register_after_finalized_witness :
    finalizedState.finalized = true ∧
    RegisterShutdown finalizedState (FuncId.user 9) [] =
      { state := finalizedState, errorReported := true } :=
  ⟨by decide, register_after_finalized finalizedState (FuncId.user 9) [] (by decide)⟩

/-- C6: exit code 0 for Shutdown, 1 for Abort; the abort message, when
non-empty, is written to stderr exactly once, immediately before the
exit; an empty message (and every Shutdown) produces no stderr
output. -/
theorem termination_exit_behavior (s : ToolmanState) (mesg : String)
    (h : s.finalized = false) :
    (Shutdown s).events.getLast? = some (Event.exit 0) ∧
    stderrWrites (Shutdown s).events = [] ∧
    (Abort s mesg).events.getLast? = some (Event.exit 1) ∧
    stderrWrites (Abort s mesg).events = (if mesg = "" then [] else [mesg]) ∧
    (mesg ≠ "" →
      (Abort s mesg).events.dropLast.getLast? = some (Event.writeStderr mesg)) := by
  have hs := shutdown_events_eq s 0 "" h
  have ha := shutdown_events_eq s 1 mesg h
  refine ⟨?_, ?_, ?_, ?_, ?_⟩
  · rw [Shutdown, hs, List.getLast?_concat]
  · simpa [Shutdown] using stderrWrites_shutdown s 0 "" h
  · rw [Abort, ha, List.getLast?_concat]
  · exact stderrWrites_shutdown s 1 mesg h
  · intro hm
    rw [Abort, ha, List.dropLast_concat, if_neg hm, List.getLast?_concat]

/-- Witness for C6 at a concrete two-action registry and message. -/
theorem termination_exit_behavior_witness :
    twoActionState.finalized = false ∧
    ((Shutdown twoActionState).events.getLast? = some (Event.exit 0) ∧
     stderrWrites (Shutdown twoActionState).events = [] ∧
     (Abort twoActionState "boom").events.getLast? = some (Event.exit 1) ∧
     stderrWrites (Abort twoActionState "boom").events
       = (if ("boom" : String) = "" then [] else ["boom"]) ∧
     (("boom" : String) ≠ "" →
       (Abort twoActionState "boom").events.dropLast.getLast?
         = some (Event.writeStderr "boom"))) :=
  ⟨by decide, termination_exit_behavior twoActionState "boom" (by decide)⟩

/-- C4: a termination call invokes the registered callbacks in strict
reverse registration order (the invocation trace is the reverse of the
registration list, so in particular any two applicable actions are
invoked with the later-registered one first); invocations are recorded
on a single sequential trace, one at a time. -/
theorem shutdown_reverse_order (s : ToolmanState) (code : Int) (mesg : String)
    (h : s.finalized = false) :
    invokedFuncs (shutdown s code mesg).events
      = (s.downactions.map (fun da => da.downFunc)).reverse ∧
    (∀ i j : Nat, i < j → j < s.downactions.length →
      ∃ pi pj : Nat, pj < pi ∧ pi < s.downactions.length ∧
        (invokedFuncs (shutdown s code mesg).events)[pj]?
          = (s.downactions[j]?).map (fun da => da.downFunc) ∧
        (invokedFuncs (shutdown s code mesg).events)[pi]?
          = (s.downactions[i]?).map (fun da => da.downFunc)) := by
  have hinv := invokedFuncs_shutdown s code mesg h
  have hmr : s.downactions.reverse.map (fun da => da.downFunc)
      = (s.downactions.map (fun da => da.downFunc)).reverse := by
    rw [List.map_reverse]
  constructor
  · rw [hinv, hmr]
  · intro i j hij hj
    have hi : i < s.downactions.length := lt_trans hij hj
    refine ⟨s.downactions.length - 1 - i, s.downactions.length - 1 - j,
      by omega, by omega, ?_, ?_⟩
    · rw [hinv, List.getElem?_map, List.getElem?_reverse (by omega)]
      have hjj : s.downactions.length - 1 - (s.downactions.length - 1 - j) = j := by
        omega
      rw [hjj]
    · rw [hinv, List.getElem?_map, List.getElem?_reverse (by omega)]
      have hii : s.downactions.length - 1 - (s.downactions.length - 1 - i) = i := by
        omega
      rw [hii]

/-- Witness for C4 at a concrete two-action registry. -/
theorem shutdown_reverse_order_witness :
    twoActionState.finalized = false ∧
    (invokedFuncs (shutdown twoActionState 0 "").events
       = (twoActionState.downactions.map (fun da => da.downFunc)).reverse ∧
     (∀ i j : Nat, i < j → j < twoActionState.downactions.length →
       ∃ pi pj : Nat, pj < pi ∧ pi < twoActionState.downactions.length ∧
         (invokedFuncs (shutdown twoActionState 0 "").events)[pj]?
           = (twoActionState.downactions[j]?).map (fun da => da.downFunc) ∧
         (invokedFuncs (shutdown twoActionState 0 "").events)[pi]?
           = (twoActionState.downactions[i]?).map (fun da => da.downFunc))) :=
  ⟨by decide, shutdown_reverse_order twoActionState 0 "" (by decide)⟩

/-- C7 (counterexample): the claim says the registry lock is held only
for an append or a flag check-and-set and never across action
execution.  On a concrete one-action registry, the terminating
`shutdown` call invokes the action while its lock depth is positive,
and its trace contains no lock release at all (`os.Exit` skips the
deferred unlock), so the claim as stated is false. -/
theorem lock_scope_claim_false :
    lockHeldDuringInvoke (Shutdown oneActionState).events = true ∧
    Event.lockRelease ∉ (Shutdown oneActionState).events := by
  decide

/-- C7 (amended): the terminating `shutdown` call acquires the lock as
its first step and never releases it — the process exits while the lock
is held — so the lock is held across all action execution, and a
registration or further termination call made while actions run blocks
until process exit instead of failing fast.  Only a sequential call
finding `finalized` already set returns promptly, releasing the lock
without invoking anything. -/
theorem shutdown_lock_held_until_exit (s : ToolmanState) (code : Int)
    (mesg : String) (h : s.finalized = false) :
    (shutdown s code mesg).events.head? = some Event.lockAcquire ∧
    Event.lockRelease ∉ (shutdown s code mesg).events ∧
    (shutdown s code mesg).events.getLast? = some (Event.exit code) ∧
    (s.downactions ≠ [] →
      lockHeldDuringInvoke (shutdown s code mesg).events = true) ∧
    (shutdown (shutdown s code mesg).state code mesg).events
      = [Event.lockAcquire, Event.lockRelease] := by
  have hev := shutdown_events_eq s code mesg h
  have h1 : (shutdown s code mesg).state.finalized = true := by
    simp [shutdown, h]
  refine ⟨?_, ?_, ?_, ?_, ?_⟩
  · rw [hev]; rfl
  · rw [hev]
    by_cases hm : mesg = "" <;> simp [hm]
  · rw [hev, List.getLast?_concat]
  · intro hne
    obtain ⟨a, l, hrev⟩ : ∃ a l, s.downactions.reverse = a :: l := by
      cases hr : s.downactions.reverse with
      | nil => exact absurd (List.reverse_eq_nil_iff.mp hr) hne
      | cons a l => exact ⟨a, l, rfl⟩
    rw [lockHeldDuringInvoke, hev, hrev]
    simp [lockHeldDuringInvokeAux]
  · rw [shutdown_finalized _ code mesg h1]

/-- Witness for the amended C7 at a concrete one-action registry. -/
theorem shutdown_lock_held_until_exit_witness :
    twoActionState.finalized = false ∧
    ((shutdown twoActionState 1 "w").events.head? = some Event.lockAcquire ∧
     Event.lockRelease ∉ (shutdown twoActionState 1 "w").events ∧
     (shutdown twoActionState 1 "w").events.getLast? = some (Event.exit 1) ∧
     (twoActionState.downactions ≠ [] →
       lockHeldDuringInvoke (shutdown twoActionState 1 "w").events = true) ∧
     (shutdown (shutdown twoActionState 1 "w").state 1 "w").events
       = [Event.lockAcquire, Event.lockRelease]) :=
  ⟨by decide, shutdown_lock_held_until_exit twoActionState 1 "w" (by decide)⟩

theorem foldl_apply_downFunc (opts : List ShutdownOption) :
    ∀ sa : ShutdownAction,
      (opts.foldl ShutdownOption.apply sa).downFunc = sa.downFunc := by
  induction opts with
  | nil => intro sa; rfl
  | cons o rest ih =>
    intro sa
    cases o <;> simp [List.foldl_cons, ShutdownOption.apply, ih]

theorem foldl_apply_onAbort (opts : List ShutdownOption) :
    ∀ sa : ShutdownAction,
      (opts.foldl ShutdownOption.apply sa).onAbort
        = (sa.onAbort || decide (ShutdownOption.onAbort ∈ opts)) := by
  induction opts with
  | nil => intro sa; simp
  | cons o rest ih =>
    intro sa
    cases o <;> simp [List.foldl_cons, ShutdownOption.apply, ih, List.mem_cons]

theorem foldl_apply_onShutdown (opts : List ShutdownOption) :
    ∀ sa : ShutdownAction,
      (opts.foldl ShutdownOption.apply sa).onShutdown
        = (sa.onShutdown || decide (ShutdownOption.onShutdown ∈ opts)) := by
  induction opts with
  | nil => intro sa; simp
  | cons o rest ih =>
    intro sa
    cases o <;> simp [List.foldl_cons, ShutdownOption.apply, ih, List.mem_cons]

theorem foldl_apply_allowance (opts : List ShutdownOption) :
    ∀ sa : ShutdownAction, (∀ d : Int, ShutdownOption.timeAllowance d ∉ opts) →
      (opts.foldl ShutdownOption.apply sa).allowance = sa.allowance := by
  induction opts with
  | nil => intro sa _; rfl
  | cons o rest ih =>
    intro sa h
    have hrest : ∀ d : Int, ShutdownOption.timeAllowance d ∉ rest := by
      intro d hd
      exact h d (List.mem_cons_of_mem _ hd)
    cases o with
    | onShutdown => simp [List.foldl_cons, ShutdownOption.apply, ih _ hrest]
    | onAbort => simp [List.foldl_cons, ShutdownOption.apply, ih _ hrest]
    | timeAllowance d => exact absurd (List.mem_cons_self _ _) (h d)

/-- C8: a successful registration appends an action whose allowance is
the default 100ms unless a `TimeAllowance` option was supplied; with
neither scope option both flags default to true, and with exactly one
scope option the other flag stays false. -/
theorem register_option_semantics (s : ToolmanState) (f : FuncId)
    (opts : List ShutdownOption) (h : s.finalized = false) :
    (RegisterShutdown s f opts).state.downactions
      = s.downactions ++ [builtAction f opts] ∧
    (builtAction f opts).downFunc = f ∧
    ((∀ d : Int, ShutdownOption.timeAllowance d ∉ opts) →
      (builtAction f opts).allowance = 100 * millisecond) ∧
    ((ShutdownOption.onShutdown ∉ opts ∧ ShutdownOption.onAbort ∉ opts) →
      (builtAction f opts).onShutdown = true ∧
      (builtAction f opts).onAbort = true) ∧
    ((ShutdownOption.onAbort ∈ opts ∧ ShutdownOption.onShutdown ∉ opts) →
      (builtAction f opts).onAbort = true ∧
      (builtAction f opts).onShutdown = false) ∧
    ((ShutdownOption.onShutdown ∈ opts ∧ ShutdownOption.onAbort ∉ opts) →
      (builtAction f opts).onShutdown = true ∧
      (builtAction f opts).onAbort = false) := by
  refine ⟨by simp [RegisterShutdown, h], ?_, ?_, ?_, ?_, ?_⟩
  · simp only [builtAction]
    split <;> simp [foldl_apply_downFunc]
  · intro hd
    simp only [builtAction]
    split <;> simp [foldl_apply_allowance _ _ hd]
  · intro ⟨hs, ha⟩
    simp only [builtAction]
    split <;> rename_i hcond
    · exact ⟨rfl, rfl⟩
    · exfalso
      rw [foldl_apply_onAbort, foldl_apply_onShutdown] at hcond
      simp [ha, hs] at hcond
  · intro ⟨ha, hs⟩
    simp only [builtAction]
    split <;> rename_i hcond
    · exfalso
      rw [foldl_apply_onAbort] at hcond
      simp [ha] at hcond
    · rw [foldl_apply_onAbort, foldl_apply_onShutdown]
      simp [ha, hs]
  · intro ⟨hs, ha⟩
    simp only [builtAction]
    split <;> rename_i hcond
    · exfalso
      rw [foldl_apply_onShutdown] at hcond
      simp [hs] at hcond
    · rw [foldl_apply_onAbort, foldl_apply_onShutdown]
      simp [ha, hs]

/-- Witness for C8 at a concrete abort-only registration. -/
theorem register_option_semantics_witness :
    emptyState.finalized = false ∧
    ((RegisterShutdown emptyState (FuncId.user 8) [ShutdownOption.onAbort]).state.downactions
       = emptyState.downactions ++ [builtAction (FuncId.user 8) [ShutdownOption.onAbort]] ∧
     (builtAction (FuncId.user 8) [ShutdownOption.onAbort]).downFunc = FuncId.user 8 ∧
     ((∀ d : Int, ShutdownOption.timeAllowance d ∉ [ShutdownOption.onAbort]) →
       (builtAction (FuncId.user 8) [ShutdownOption.onAbort]).allowance
         = 100 * millisecond) ∧
     ((ShutdownOption.onShutdown ∉ [ShutdownOption.onAbort] ∧
       ShutdownOption.onAbort ∉ [ShutdownOption.onAbort]) →
       (builtAction (FuncId.user 8) [ShutdownOption.onAbort]).onShutdown = true ∧
       (builtAction (FuncId.user 8) [ShutdownOption.onAbort]).onAbort = true) ∧
     ((ShutdownOption.onAbort ∈ [ShutdownOption.onAbort] ∧
       ShutdownOption.onShutdown ∉ [ShutdownOption.onAbort]) →
       (builtAction (FuncId.user 8) [ShutdownOption.onAbort]).onAbort = true ∧
       (builtAction (FuncId.user 8) [ShutdownOption.onAbort]).onShutdown = false) ∧
     ((ShutdownOption.onShutdown ∈ [ShutdownOption.onAbort] ∧
       ShutdownOption.onAbort ∉ [ShutdownOption.onAbort]) →
       (builtAction (FuncId.user 8) [ShutdownOption.onAbort]).onShutdown = true ∧
       (builtAction (FuncId.user 8) [ShutdownOption.onAbort]).onAbort = false)) :=
  ⟨by decide, register_option_semantics emptyState (FuncId.user 8)
    [ShutdownOption.onAbort] (by decide)⟩

theorem Init_of_initialized (s : ToolmanState) (h : s.initialized = true) :
    Init s = { state := { s with initialized := true }
               panicked := true, ran := [] } := by
  simp [Init, h]

/-- C9: a second `Init` invocation panics rather than silently doing
nothing, while the first invocation runs every function registered via
`RegisterInit` in forward registration order (`RegisterInit` appends,
and `Init` runs the list front to back). -/
theorem init_at_most_once (s : ToolmanState) (h : s.initialized = false) :
    (Init s).panicked = false ∧
    (Init s).ran = s.initfuncs ∧
    (Init s).state.initialized = true ∧
    (Init (Init s).state).panicked = true ∧
    (Init (Init s).state).ran = [] ∧
    (∀ f : FuncId, (RegisterInit s f).state.initfuncs = s.initfuncs ++ [f]) := by
  have h1 : (Init s).state.initialized = true := by
    simp [Init, h]
  have h2 := Init_of_initialized _ h1
  refine ⟨by simp [Init, h], by simp [Init, h], h1, ?_, ?_, ?_⟩
  · rw [h2]
  · rw [h2]
  · intro f
    simp [RegisterInit, h]

/-- Witness for C9 at a concrete pre-init state. -/
theorem init_at_most_once_witness :
    preInitState.initialized = false ∧
    ((Init preInitState).panicked = false ∧
     (Init preInitState).ran = preInitState.initfuncs ∧
     (Init preInitState).state.initialized = true ∧
     (Init (Init preInitState).state).panicked = true ∧
     (Init (Init preInitState).state).ran = [] ∧
     (∀ f : FuncId,
       (RegisterInit preInitState f).state.initfuncs
         = preInitState.initfuncs ++ [f])) :=
  ⟨by decide, init_at_most_once preInitState (by decide)⟩

/-- C10: `Init` itself appends the log-flush action (default 100ms
allowance, both modes) to the registry, so the registry is non-empty
after `Init` even with no user registration; absent further
registrations a termination run invokes the flush action first (it is
last in registration order and execution is reversed), and the budget
sum includes its 100ms allowance. -/
theorem init_registers_flush (s : ToolmanState) (code : Int) (mesg : String)
    (h1 : s.initialized = false) (h2 : s.finalized = false) :
    (Init s).state.downactions = s.downactions ++ [flushAction] ∧
    flushAction.allowance = 100 * millisecond ∧
    flushAction.onShutdown = true ∧
    flushAction.onAbort = true ∧
    (Init s).state.downactions ≠ [] ∧
    (invokedFuncs (shutdown (Init s).state code mesg).events).head?
      = some FuncId.logFlush ∧
    (shutdown (Init s).state code mesg).budget
      = (sumAllowances s.downactions + 100 * millisecond)
        + Int.tdiv (sumAllowances s.downactions + 100 * millisecond) 5 := by
  have hact : (Init s).state.downactions = s.downactions ++ [flushAction] := by
    simp [Init, h1, RegisterShutdown, h2]
    rfl
  have hfin : (Init s).state.finalized = false := by
    simp [Init, h1, RegisterShutdown, h2]
  have hsum : sumAllowances (Init s).state.downactions
      = sumAllowances s.downactions + 100 * millisecond := by
    rw [hact]
    simp [sumAllowances, flushAction]
  refine ⟨hact, rfl, rfl, rfl, ?_, ?_, ?_⟩
  · rw [hact]
    simp
  · rw [invokedFuncs_shutdown _ code mesg hfin, hact]
    simp [flushAction]
  · have hb : (shutdown (Init s).state code mesg).budget
        = sumAllowances (Init s).state.downactions
          + Int.tdiv (sumAllowances (Init s).state.downactions) 5 := by
      simp [shutdown, hfin]
    rw [hb, hsum]

/-- Witness for C10 at a concrete pre-init state. -/
theorem init_registers_flush_witness :
    preInitState.initialized = false ∧
    preInitState.finalized = false ∧
    ((Init preInitState).state.downactions
       = preInitState.downactions ++ [flushAction] ∧
     flushAction.allowance = 100 * millisecond ∧
     flushAction.onShutdown = true ∧
     flushAction.onAbort = true ∧
     (Init preInitState).state.downactions ≠ [] ∧
     (invokedFuncs (shutdown (Init preInitState).state 0 "").events).head?
       = some FuncId.logFlush ∧
     (shutdown (Init preInitState).state 0 "").budget
       = (sumAllowances preInitState.downactions + 100 * millisecond)
         + Int.tdiv (sumAllowances preInitState.downactions + 100 * millisecond) 5) :=
  ⟨by decide, by decide, init_registers_flush preInitState 0 "" (by decide) (by decide)⟩
